import Mathlib

/-!
Verification of the `docker-image-tracker` (`dit`) CLI: a shallow embedding
of its data model (`src/models.rs`), diff computation (`src/diff.rs`,
`src/ci.rs`), CI budget gate (`src/ci.rs`) and history store
(`src/track_all.rs`), with theorems checking the specification's claims.

Modelling conventions:
- Rust `u64` fields are `Nat`; arithmetic whose overflow behaviour matters
  is made explicit (`u64ToI64`, `i64wrap` model the `as i64` cast and the
  release-mode wrapping of `i64` subtraction; the `u64` sum in
  `check_budgets` is reduced mod 2^64).
- Rust `f64` percentage arithmetic is modelled by exact rationals (`ℚ`).
- `HashMap` built by `collect` from an iterator keeps the last insert per
  key, modelled by `findLastByDigest`.
- `eprintln!` violation reports in `check_budgets` are collected in a list;
  the `failed` boolean is threaded exactly as in the source.
-/

namespace Dit

/-- Layer metadata, from `LayerInfo` in `src/models.rs` (`created` is the
`DateTime<Utc>` timestamp, modelled as an integer). -/
structure LayerInfo where
  digest : String
  size : Nat
  command : String
  created : Int
deriving Repr, DecidableEq

/-- One tracked image snapshot, from `ImageSnapshot` in `src/models.rs`
(`timestamp` modelled as an integer). -/
structure ImageSnapshot where
  image : String
  tag : Option String
  digest : Option String
  commit_sha : String
  branch : String
  commit_message : String
  author : String
  timestamp : Int
  total_size : Nat
  layer_count : Nat
  layers : List LayerInfo
  os : String
  arch : String
deriving Repr, DecidableEq

/-- Per-layer diff classification, from `LayerChange` in `src/models.rs`. -/
inductive LayerChange where
  | Added (layer : LayerInfo)
  | Removed (layer : LayerInfo)
  | Modified (before : LayerInfo) (after : LayerInfo)
  | Unchanged (layer : LayerInfo)
deriving Repr, DecidableEq

/-- Diff between two snapshots, from `SizeDiff` in `src/models.rs`. -/
structure SizeDiff where
  before : ImageSnapshot
  after : ImageSnapshot
  total_delta : Int
  layer_changes : List LayerChange
deriving Repr, DecidableEq

/-- The value of `n as i64` for a `u64` value `n`: a bit-preserving cast,
so values at or above 2^63 become negative. -/
def u64ToI64 (n : Nat) : Int :=
  if n < 2 ^ 63 then (n : Int) else (n : Int) - 2 ^ 64

/-- Release-mode wrapping of an `i64` arithmetic result into
`[-2^63, 2^63)`. -/
def i64wrap (z : Int) : Int :=
  (z + 2 ^ 63) % 2 ^ 64 - 2 ^ 63

/-- Lookup in the `HashMap` that `compute_diff` builds by `collect`ing
`(digest, layer)` pairs: repeated inserts keep the last occurrence, so
`get` returns the last layer in the list with the given digest. -/
def findLastByDigest (layers : List LayerInfo) (d : String) : Option LayerInfo :=
  layers.foldl (fun acc l => if l.digest = d then some l else acc) none

/-- `contains_key` on that map: does some layer in the list have digest
`d`? -/
def hasDigest (layers : List LayerInfo) (d : String) : Bool :=
  layers.any (fun l => l.digest = d)

/-- `compute_diff` from `src/diff.rs` lines 83-130 (the copy in
`src/ci.rs` lines 134-178 is identical): `total_delta` is the `i64`
difference of the `total_size` fields; each `before` layer is classified
Unchanged / Modified / Removed against the after-layer map, then each
`after` layer whose digest is absent from `before` is emitted as Added. -/
def compute_diff (before after : ImageSnapshot) : SizeDiff :=
  let total_delta := i64wrap (u64ToI64 after.total_size - u64ToI64 before.total_size)
  let changes_before := before.layers.map (fun l =>
    match findLastByDigest after.layers l.digest with
    | some after_layer =>
      if l.size = after_layer.size then LayerChange.Unchanged l
      else LayerChange.Modified l after_layer
    | none => LayerChange.Removed l)
  let changes_added :=
    (after.layers.filter (fun l => !hasDigest before.layers l.digest)).map
      LayerChange.Added
  { before := before, after := after, total_delta := total_delta,
    layer_changes := changes_before ++ changes_added }

/-- The image label used in budget-violation messages:
`format!("{}:{}", current.image, current.tag.as_deref().unwrap_or("latest"))`. -/
def imageName (s : ImageSnapshot) : String :=
  s.image ++ ":" ++ s.tag.getD "latest"

/-- Output format selector, from `CiOutputFormat` in `src/ci.rs`. -/
inductive CiOutputFormat where
  | Table
  | Json
  | Markdown
deriving Repr, DecidableEq

/-- CI configuration, from `CiConfig` in `src/ci.rs`
(`budget_increase_percent` is `f64` in the source, modelled by `ℚ`). -/
structure CiConfig where
  images : List String
  budget_bytes : Option Nat
  budget_increase_percent : Option ℚ
  github_comment : Bool
  base_branch : Option String
  fail_on_increase : Bool
  format : CiOutputFormat
deriving Repr, DecidableEq

/-- One budget violation report: each constructor corresponds to one
`eprintln!` site in `check_budgets` (`src/ci.rs` lines 379-436). -/
inductive Violation where
  | absolute (observed : Nat) (limit : Nat)
  | percentExceeded (image : String)
  | increased (image : String)
deriving Repr, DecidableEq

/-- The percent change computed in `check_budgets`:
`(diff.total_delta as f64 / diff.before.total_size as f64) * 100.0`,
modelled with exact rational arithmetic. -/
def percentOf (diff : SizeDiff) : ℚ :=
  (diff.total_delta : ℚ) / (diff.before.total_size : ℚ) * 100

/-- One iteration of the percent-increase loop in `check_budgets`
(`src/ci.rs` lines 401-417): the state is the violations reported so far
and the `failed` flag. -/
def percentStep (threshold : ℚ) (acc : List Violation × Bool)
    (p : ImageSnapshot × Option SizeDiff) : List Violation × Bool :=
  match p.2 with
  | some diff =>
    if 0 < diff.before.total_size then
      if percentOf diff > threshold then
        (acc.1 ++ [Violation.percentExceeded (imageName p.1)], true)
      else acc
    else acc
  | none => acc

/-- One iteration of the fail-on-increase loop in `check_budgets`
(`src/ci.rs` lines 420-433). -/
def increaseStep (acc : List Violation × Bool)
    (p : ImageSnapshot × Option SizeDiff) : List Violation × Bool :=
  match p.2 with
  | some diff =>
    if 0 < diff.total_delta then
      (acc.1 ++ [Violation.increased (imageName p.1)], true)
    else acc
  | none => acc

/-- `check_budgets` from `src/ci.rs` lines 379-436. Returns the list of
violations reported (one entry per `eprintln!`) together with the `failed`
boolean the source accumulates; the source's return value is that boolean.
The `u64` sum of snapshot sizes is reduced mod 2^64 as in release-mode
wrapping. -/
def check_budgets (comparisons : List (ImageSnapshot × Option SizeDiff))
    (config : CiConfig) : List Violation × Bool :=
  let total_current : Nat :=
    (comparisons.foldl (fun acc p => acc + p.1.total_size) 0) % 2 ^ 64
  let st0 : List Violation × Bool := ([], false)
  let st1 := match config.budget_bytes with
    | some budget =>
      if total_current > budget then
        (st0.1 ++ [Violation.absolute total_current budget], true)
      else st0
    | none => st0
  let st2 := match config.budget_increase_percent with
    | some threshold => comparisons.foldl (percentStep threshold) st1
    | none => st1
  let st3 := if config.fail_on_increase then comparisons.foldl increaseStep st2 else st2
  st3

/-- `find_latest_snapshot_by_branch` from `src/diff.rs` lines 71-81:
scan the (image-filtered) history from newest to oldest and return the
first snapshot recorded on `branch`; error when none matches. -/
def find_latest_snapshot_by_branch (history : List ImageSnapshot) (branch : String) :
    Except String ImageSnapshot :=
  match history.reverse.find? (fun s => s.branch == branch) with
  | some s => Except.ok s
  | none => Except.error ("No snapshot found for branch " ++ branch)

/-- `find_baseline_snapshot` from `src/ci.rs` lines 107-132: filter the
history to the image, return `none` when empty; with an explicit base
branch return the newest snapshot on that branch, otherwise the most
recent snapshot. -/
def find_baseline_snapshot (history : List ImageSnapshot) (image : String)
    (base_branch : Option String) : Option ImageSnapshot :=
  let image_history := history.filter (fun s => s.image == image)
  if image_history.isEmpty then none
  else
    match base_branch with
    | some branch => image_history.reverse.find? (fun s => s.branch == branch)
    | none => image_history.getLast?

/-- `save_snapshot` from `src/track_all.rs` lines 106-131: read and parse
`history.json` when it exists (empty list otherwise), append the new
snapshot, and write the whole list back. The store file is modelled as
`Option (List ImageSnapshot)` with `none` for an absent file; the JSON
codec is modelled as the identity on parsed values (the derived serde
round-trip). -/
def save_snapshot (store : Option (List ImageSnapshot)) (snapshot : ImageSnapshot) :
    Option (List ImageSnapshot) :=
  let snapshots := match store with
    | some content => content
    | none => []
  some (snapshots ++ [snapshot])

/-- Modelled from the spec: `load_history` lives in `src/track.rs`, which
is not among the provided sources (only its callers are). The spec says a
Load on a non-existent store returns an empty sequence, not an error,
matching the load step inside `save_snapshot` (parse `history.json` when
present, empty list otherwise). -/
def load_history (store : Option (List ImageSnapshot)) : List ImageSnapshot :=
  match store with
  | some content => content
  | none => []

/-- One iteration of the comparison loop in `run_ci` (`src/ci.rs` lines
56-70): resolve a baseline against the history loaded before the loop,
push `(current, Some diff)` or `(current, None)` (setting `first_run` in
the latter case), and append the current snapshot to the store. -/
def runCiStep (history : List ImageSnapshot) (base_branch : Option String)
    (st : List (ImageSnapshot × Option SizeDiff) × Option (List ImageSnapshot) × Bool)
    (current : ImageSnapshot) :
    List (ImageSnapshot × Option SizeDiff) × Option (List ImageSnapshot) × Bool :=
  match find_baseline_snapshot history current.image base_branch with
  | some base =>
    (st.1 ++ [(current, some (compute_diff base current))],
     save_snapshot st.2.1 current, st.2.2)
  | none =>
    (st.1 ++ [(current, none)], save_snapshot st.2.1 current, true)

/-- The pure core of `run_ci` (`src/ci.rs` lines 51-70): load the history
once, then fold the comparison loop over the current snapshots. Returns
the comparisons, the final store, and the `first_run` flag. -/
def run_ci_core (store : Option (List ImageSnapshot))
    (currents : List ImageSnapshot) (base_branch : Option String) :
    List (ImageSnapshot × Option SizeDiff) × Option (List ImageSnapshot) × Bool :=
  currents.foldl (runCiStep (load_history store) base_branch) ([], store, false)

/-! ### Basic lemmas about the machine-integer model and the layer map -/

theorem u64ToI64_of_lt {n : Nat} (h : n < 2 ^ 63) : u64ToI64 n = (n : Int) := by
  have h' : n < 9223372036854775808 := by omega
  simp [u64ToI64, h']

theorem i64wrap_of_bounds {z : Int} (h1 : -(2 ^ 63) ≤ z) (h2 : z < 2 ^ 63) :
    i64wrap z = z := by
  unfold i64wrap
  have h3 : (z + 2 ^ 63) % 2 ^ 64 = z + 2 ^ 63 :=
    Int.emod_eq_of_lt (by omega) (by omega)
  omega

theorem findLastByDigest_go (d : String) (xs : List LayerInfo) :
    ∀ acc : Option LayerInfo,
      xs.foldl (fun acc l => if l.digest = d then some l else acc) acc
        = (xs.reverse.find? (fun l => l.digest == d)).or acc := by
  induction xs with
  | nil => intro acc; simp
  | cons x xs ih =>
    intro acc
    simp only [List.foldl_cons, List.reverse_cons, List.find?_append, ih]
    by_cases h : x.digest = d
    · simp [h, Option.or_assoc]
    · simp [h]

theorem findLastByDigest_eq_reverse_find (layers : List LayerInfo) (d : String) :
    findLastByDigest layers d = layers.reverse.find? (fun l => l.digest == d) := by
  unfold findLastByDigest
  rw [findLastByDigest_go]
  simp

theorem findLastByDigest_eq_find?_of_nodup (layers : List LayerInfo) (d : String)
    (hn : (layers.map LayerInfo.digest).Nodup) :
    findLastByDigest layers d = layers.find? (fun l => l.digest == d) := by
  rw [findLastByDigest_eq_reverse_find]
  cases hfind : layers.find? (fun l => l.digest == d) with
  | none =>
    rw [List.find?_eq_none] at hfind ⊢
    intro x hx
    exact hfind x (List.mem_reverse.mp hx)
  | some a =>
    have ha := List.find?_some hfind
    have hamem := List.mem_of_find?_eq_some hfind
    cases hrev : layers.reverse.find? (fun l => l.digest == d) with
    | none =>
      rw [List.find?_eq_none] at hrev
      exact absurd ha (hrev a (List.mem_reverse.mpr hamem))
    | some b =>
      have hb := List.find?_some hrev
      have hbmem := List.mem_reverse.mp (List.mem_of_find?_eq_some hrev)
      have hdig : b.digest = a.digest := by
        have hb' : b.digest = d := by simpa using hb
        have ha' : a.digest = d := by simpa using ha
        rw [hb', ha']
      have : b = a := List.inj_on_of_nodup_map hn hbmem hamem hdig
      rw [this]

theorem findLastByDigest_self (layers : List LayerInfo) (l : LayerInfo)
    (hn : (layers.map LayerInfo.digest).Nodup) (hl : l ∈ layers) :
    findLastByDigest layers l.digest = some l := by
  rw [findLastByDigest_eq_find?_of_nodup _ _ hn]
  cases hfind : layers.find? (fun x => x.digest == l.digest) with
  | none =>
    rw [List.find?_eq_none] at hfind
    exact absurd (by simp) (hfind l hl)
  | some b =>
    have hb := List.find?_some hfind
    have hbmem := List.mem_of_find?_eq_some hfind
    have : b = l := List.inj_on_of_nodup_map hn hbmem hl (by simpa using hb)
    rw [this]

/-! ### C2: total_delta -/

/-- C2: for every pair of snapshots (with sizes in the `i64`-exact range),
the diff's `total_delta` equals `after.total_size − before.total_size` as a
signed difference; it depends only on the two `total_size` fields and not
on the layer lists; and in the identical-layer case every layer change is
`Unchanged` while `total_delta` is still the difference of the
`total_size` fields. -/
theorem compute_diff_total_delta_spec (before after : ImageSnapshot)
    (hb : before.total_size < 2 ^ 63) (ha : after.total_size < 2 ^ 63) :
    (compute_diff before after).total_delta
        = (after.total_size : Int) - (before.total_size : Int)
    ∧ (∀ b a : ImageSnapshot, b.total_size = before.total_size →
        a.total_size = after.total_size →
        (compute_diff b a).total_delta = (compute_diff before after).total_delta)
    ∧ ((before.layers.map LayerInfo.digest).Nodup → before.layers = after.layers →
        ∀ c ∈ (compute_diff before after).layer_changes,
          ∃ l, c = LayerChange.Unchanged l) := by
  refine ⟨?_, ?_, ?_⟩
  · show i64wrap (u64ToI64 after.total_size - u64ToI64 before.total_size) = _
    rw [u64ToI64_of_lt ha, u64ToI64_of_lt hb]
    exact i64wrap_of_bounds (by omega) (by omega)
  · intro b a hbs has
    show i64wrap (u64ToI64 a.total_size - u64ToI64 b.total_size)
        = i64wrap (u64ToI64 after.total_size - u64ToI64 before.total_size)
    rw [hbs, has]
  · intro hn heq c hc
    have hc' : c ∈ (compute_diff before after).layer_changes := hc
    unfold compute_diff at hc'
    simp only [List.mem_append, List.mem_map, List.mem_filter] at hc'
    rcases hc' with ⟨l, hl, hcl⟩ | ⟨l, ⟨hl, hfilt⟩, hcl⟩
    · refine ⟨l, ?_⟩
      rw [← heq, findLastByDigest_self before.layers l hn hl] at hcl
      simp only [if_pos rfl] at hcl
      exact hcl.symm
    · exfalso
      rw [← heq] at hl
      have : hasDigest before.layers l.digest = true := by
        unfold hasDigest
        rw [List.any_eq_true]
        exact ⟨l, hl, by simp⟩
      rw [this] at hfilt
      simp at hfilt

/-- C2 witness: two concrete snapshots (sizes 100 and 111, one shared
layer) instantiating `compute_diff_total_delta_spec`. -/
theorem compute_diff_total_delta_spec_witness :
    (100 : Nat) < 2 ^ 63 ∧ (111 : Nat) < 2 ^ 63 ∧
    ((compute_diff
        { image := "app", tag := none, digest := none, commit_sha := "a",
          branch := "main", commit_message := "", author := "", timestamp := 0,
          total_size := 100, layer_count := 1,
          layers := [{ digest := "sha256:x", size := 100, command := "RUN a", created := 0 }],
          os := "linux", arch := "amd64" }
        { image := "app", tag := none, digest := none, commit_sha := "b",
          branch := "main", commit_message := "", author := "", timestamp := 1,
          total_size := 111, layer_count := 1,
          layers := [{ digest := "sha256:x", size := 100, command := "RUN a", created := 0 }],
          os := "linux", arch := "amd64" }).total_delta
      = ((111 : Nat) : Int) - ((100 : Nat) : Int)) := by
  refine ⟨by norm_num, by norm_num, ?_⟩
  exact (compute_diff_total_delta_spec _ _ (by norm_num) (by norm_num)).1

/-! ### C10: unconfigured gate passes -/

/-- C10: with no absolute budget, no percent threshold and
fail-on-increase disabled, `check_budgets` reports no violation and its
verdict is a pass, for every batch of comparisons. -/
theorem check_budgets_unconfigured_passes
    (comparisons : List (ImageSnapshot × Option SizeDiff))
    (images : List String) (gh : Bool) (bb : Option String) (fmt : CiOutputFormat) :
    check_budgets comparisons
      { images := images, budget_bytes := none, budget_increase_percent := none,
        github_comment := gh, base_branch := bb, fail_on_increase := false,
        format := fmt } = ([], false) := rfl

/-! ### C8: store round-trip -/

theorem save_snapshot_foldl_some (snaps : List ImageSnapshot) :
    ∀ l : List ImageSnapshot,
      snaps.foldl save_snapshot (some l) = some (l ++ snaps) := by
  induction snaps with
  | nil => intro l; simp
  | cons s rest ih =>
    intro l
    show rest.foldl save_snapshot (save_snapshot (some l) s) = _
    rw [show save_snapshot (some l) s = some (l ++ [s]) from rfl, ih]
    simp

/-- C8: loading an absent store yields the empty sequence (not an error),
and appending any sequence of snapshots to an absent store and then
loading returns exactly those snapshots, in append order, field-for-field
equal (list equality of `ImageSnapshot` records). -/
theorem store_round_trip_spec :
    load_history (none : Option (List ImageSnapshot)) = []
    ∧ ∀ snaps : List ImageSnapshot,
        load_history (snaps.foldl save_snapshot none) = snaps := by
  refine ⟨rfl, ?_⟩
  intro snaps
  cases snaps with
  | nil => rfl
  | cons s rest =>
    show load_history (rest.foldl save_snapshot (save_snapshot none s)) = _
    rw [show save_snapshot none s = some [s] from rfl, save_snapshot_foldl_some]
    rfl

/-! ### Closed form of check_budgets -/

/-- Is a violation the absolute-budget one? -/
def Violation.isAbsolute : Violation → Bool
  | Violation.absolute _ _ => true
  | _ => false

/-- Is a violation a percent-threshold one? -/
def Violation.isPercent : Violation → Bool
  | Violation.percentExceeded _ => true
  | _ => false

/-- Is a violation a fail-on-increase one? -/
def Violation.isIncrease : Violation → Bool
  | Violation.increased _ => true
  | _ => false

/-- Spec-side predicate for the percent check: the comparison has a
baseline, its `before.total_size` is nonzero, and the percent change
`(after.total_size − before.total_size) / before.total_size × 100`
is strictly greater than the threshold. -/
def pctPred (threshold : ℚ) (p : ImageSnapshot × Option SizeDiff) : Bool :=
  match p.2 with
  | some diff => decide (0 < diff.before.total_size) && decide (threshold < percentOf diff)
  | none => false

/-- Spec-side predicate for the fail-on-increase check: the comparison has
a baseline and its `total_delta` is strictly positive. -/
def incPred (p : ImageSnapshot × Option SizeDiff) : Bool :=
  match p.2 with
  | some diff => decide (0 < diff.total_delta)
  | none => false

/-- Aggregate `total_size` over the current snapshots of a batch. -/
def sumSizes (comparisons : List (ImageSnapshot × Option SizeDiff)) : Nat :=
  (comparisons.map (fun p => p.1.total_size)).sum

/-- The violations the absolute-budget check reports. -/
def absViolations (comparisons : List (ImageSnapshot × Option SizeDiff))
    (config : CiConfig) : List Violation :=
  match config.budget_bytes with
  | some budget =>
    if sumSizes comparisons % 2 ^ 64 > budget then
      [Violation.absolute (sumSizes comparisons % 2 ^ 64) budget]
    else []
  | none => []

/-- The violations the percent-threshold check reports. -/
def pctViolations (comparisons : List (ImageSnapshot × Option SizeDiff))
    (config : CiConfig) : List Violation :=
  match config.budget_increase_percent with
  | some threshold =>
    (comparisons.filter (pctPred threshold)).map
      (fun p => Violation.percentExceeded (imageName p.1))
  | none => []

/-- The violations the fail-on-increase check reports. -/
def incViolations (comparisons : List (ImageSnapshot × Option SizeDiff))
    (config : CiConfig) : List Violation :=
  if config.fail_on_increase then
    (comparisons.filter incPred).map (fun p => Violation.increased (imageName p.1))
  else []

theorem isEmpty_map_eq {α β : Type} (f : α → β) (l : List α) :
    (l.map f).isEmpty = l.isEmpty := by
  cases l <;> rfl

theorem isEmpty_append_eq {α : Type} (l1 l2 : List α) :
    (l1 ++ l2).isEmpty = (l1.isEmpty && l2.isEmpty) := by
  cases l1 <;> simp

theorem foldl_reportStep {α : Type} (C : α → Bool) (v : α → Violation) (l : List α) :
    ∀ st : List Violation × Bool,
      l.foldl (fun acc p => if C p then (acc.1 ++ [v p], true) else acc) st
        = (st.1 ++ (l.filter C).map v, st.2 || !(l.filter C).isEmpty) := by
  induction l with
  | nil => intro st; simp
  | cons x xs ih =>
    intro st
    by_cases h : C x
    · simp only [List.foldl_cons, if_pos h, ih, List.filter_cons, h]
      simp [List.append_assoc]
    · simp only [List.foldl_cons, if_neg h, ih, List.filter_cons]

theorem percentStep_eq (threshold : ℚ) :
    percentStep threshold = fun acc p =>
      if pctPred threshold p then
        (acc.1 ++ [Violation.percentExceeded (imageName p.1)], true)
      else acc := by
  funext acc p
  rcases p with ⟨s, d⟩
  cases d with
  | none => simp [percentStep, pctPred]
  | some diff =>
    simp only [percentStep, pctPred]
    by_cases h1 : 0 < diff.before.total_size
    · by_cases h2 : threshold < percentOf diff
      · simp [h1, h2]
      · simp [h1, h2]
    · simp [h1]

theorem increaseStep_eq :
    increaseStep = fun acc p =>
      if incPred p then (acc.1 ++ [Violation.increased (imageName p.1)], true)
      else acc := by
  funext acc p
  rcases p with ⟨s, d⟩
  cases d with
  | none => simp [increaseStep, incPred]
  | some diff =>
    simp only [increaseStep, incPred]
    by_cases h : 0 < diff.total_delta
    · simp [h]
    · simp [h]

theorem sum_foldl_sizes (comparisons : List (ImageSnapshot × Option SizeDiff)) :
    comparisons.foldl (fun acc p => acc + p.1.total_size) 0 = sumSizes comparisons := by
  unfold sumSizes
  induction comparisons with
  | nil => rfl
  | cons x xs ih =>
    simp only [List.map_cons, List.sum_cons]
    rw [List.foldl_cons]
    have : ∀ (l : List (ImageSnapshot × Option SizeDiff)) (n : Nat),
        l.foldl (fun acc p => acc + p.1.total_size) n
          = n + l.foldl (fun acc p => acc + p.1.total_size) 0 := by
      intro l
      induction l with
      | nil => intro n; simp
      | cons y ys ihy =>
        intro n
        simp only [List.foldl_cons]
        rw [ihy (n + y.1.total_size), ihy (0 + y.1.total_size)]
        omega
    rw [this, ih]
    omega

/-- `check_budgets` decomposed into its three violation segments: the
violations are the absolute ones, then the percent ones, then the
fail-on-increase ones, and the `failed` flag is set exactly when that
list is non-empty. -/
theorem check_budgets_eq (comparisons : List (ImageSnapshot × Option SizeDiff))
    (config : CiConfig) :
    check_budgets comparisons config
      = (absViolations comparisons config ++ pctViolations comparisons config
           ++ incViolations comparisons config,
         !(absViolations comparisons config ++ pctViolations comparisons config
           ++ incViolations comparisons config).isEmpty) := by
  unfold check_budgets
  rw [sum_foldl_sizes]
  unfold absViolations pctViolations incViolations
  cases hbb : config.budget_bytes with
  | none =>
    simp only
    cases hpc : config.budget_increase_percent with
    | none =>
      simp only
      by_cases hf : config.fail_on_increase
      · rw [if_pos hf, if_pos hf, increaseStep_eq, foldl_reportStep]
        simp [isEmpty_map_eq, isEmpty_append_eq]
      · rw [if_neg hf, if_neg hf]
        simp [isEmpty_map_eq, isEmpty_append_eq]
    | some threshold =>
      simp only
      rw [percentStep_eq, foldl_reportStep]
      by_cases hf : config.fail_on_increase
      · rw [if_pos hf, if_pos hf, increaseStep_eq, foldl_reportStep]
        simp [Bool.or_assoc, isEmpty_map_eq, isEmpty_append_eq]
      · rw [if_neg hf, if_neg hf]
        simp [isEmpty_map_eq, isEmpty_append_eq]
  | some budget =>
    simp only
    by_cases habs : sumSizes comparisons % 2 ^ 64 > budget
    · rw [if_pos habs, if_pos habs]
      cases hpc : config.budget_increase_percent with
      | none =>
        simp only
        by_cases hf : config.fail_on_increase
        · rw [if_pos hf, if_pos hf, increaseStep_eq, foldl_reportStep]
          simp [isEmpty_map_eq, isEmpty_append_eq]
        · rw [if_neg hf, if_neg hf]
          simp [isEmpty_map_eq, isEmpty_append_eq]
      | some threshold =>
        simp only
        rw [percentStep_eq, foldl_reportStep]
        by_cases hf : config.fail_on_increase
        · rw [if_pos hf, if_pos hf, increaseStep_eq, foldl_reportStep]
          simp [List.append_assoc, isEmpty_map_eq, isEmpty_append_eq]
        · rw [if_neg hf, if_neg hf]
          simp [isEmpty_map_eq, isEmpty_append_eq]
    · rw [if_neg habs, if_neg habs]
      cases hpc : config.budget_increase_percent with
      | none =>
        simp only
        by_cases hf : config.fail_on_increase
        · rw [if_pos hf, if_pos hf, increaseStep_eq, foldl_reportStep]
          simp [isEmpty_map_eq, isEmpty_append_eq]
        · rw [if_neg hf, if_neg hf]
          simp [isEmpty_map_eq, isEmpty_append_eq]
      | some threshold =>
        simp only
        rw [percentStep_eq, foldl_reportStep]
        by_cases hf : config.fail_on_increase
        · rw [if_pos hf, if_pos hf, increaseStep_eq, foldl_reportStep]
          simp [Bool.or_assoc, isEmpty_map_eq, isEmpty_append_eq]
        · rw [if_neg hf, if_neg hf]
          simp [isEmpty_map_eq, isEmpty_append_eq]

/-! ### Segment filtering lemmas -/

theorem filter_map_violation_self {α : Type} (P : Violation → Bool) (g : α → Violation)
    (h : ∀ x, P (g x) = true) (l : List α) : (l.map g).filter P = l.map g := by
  induction l with
  | nil => rfl
  | cons x xs ih => simp [h, ih]

theorem filter_map_violation_none {α : Type} (P : Violation → Bool) (g : α → Violation)
    (h : ∀ x, P (g x) = false) (l : List α) : (l.map g).filter P = [] := by
  induction l with
  | nil => rfl
  | cons x xs ih => simp [h, ih]

theorem absViolations_filter_self (comparisons : List (ImageSnapshot × Option SizeDiff))
    (config : CiConfig) :
    (absViolations comparisons config).filter Violation.isAbsolute
      = absViolations comparisons config := by
  unfold absViolations
  cases config.budget_bytes with
  | none => rfl
  | some budget =>
    by_cases h : sumSizes comparisons % 2 ^ 64 > budget
    · simp [h, Violation.isAbsolute]
    · simp [h, Violation.isAbsolute]

theorem absViolations_filter_isPercent (comparisons : List (ImageSnapshot × Option SizeDiff))
    (config : CiConfig) :
    (absViolations comparisons config).filter Violation.isPercent = [] := by
  unfold absViolations
  cases config.budget_bytes with
  | none => rfl
  | some budget =>
    by_cases h : sumSizes comparisons % 2 ^ 64 > budget
    · simp [h, Violation.isPercent]
    · simp [h, Violation.isPercent]

theorem absViolations_filter_isIncrease (comparisons : List (ImageSnapshot × Option SizeDiff))
    (config : CiConfig) :
    (absViolations comparisons config).filter Violation.isIncrease = [] := by
  unfold absViolations
  cases config.budget_bytes with
  | none => rfl
  | some budget =>
    by_cases h : sumSizes comparisons % 2 ^ 64 > budget
    · simp [h, Violation.isIncrease]
    · simp [h, Violation.isIncrease]

theorem pctViolations_filter_self (comparisons : List (ImageSnapshot × Option SizeDiff))
    (config : CiConfig) :
    (pctViolations comparisons config).filter Violation.isPercent
      = pctViolations comparisons config := by
  unfold pctViolations
  cases config.budget_increase_percent with
  | none => rfl
  | some t => exact filter_map_violation_self _ _ (fun _ => rfl) _

theorem pctViolations_filter_isAbsolute (comparisons : List (ImageSnapshot × Option SizeDiff))
    (config : CiConfig) :
    (pctViolations comparisons config).filter Violation.isAbsolute = [] := by
  unfold pctViolations
  cases config.budget_increase_percent with
  | none => rfl
  | some t => exact filter_map_violation_none _ _ (fun _ => rfl) _

theorem pctViolations_filter_isIncrease (comparisons : List (ImageSnapshot × Option SizeDiff))
    (config : CiConfig) :
    (pctViolations comparisons config).filter Violation.isIncrease = [] := by
  unfold pctViolations
  cases config.budget_increase_percent with
  | none => rfl
  | some t => exact filter_map_violation_none _ _ (fun _ => rfl) _

theorem incViolations_filter_self (comparisons : List (ImageSnapshot × Option SizeDiff))
    (config : CiConfig) :
    (incViolations comparisons config).filter Violation.isIncrease
      = incViolations comparisons config := by
  unfold incViolations
  by_cases h : config.fail_on_increase
  · rw [if_pos h]
    exact filter_map_violation_self _ _ (fun _ => rfl) _
  · rw [if_neg h]
    rfl

theorem incViolations_filter_isAbsolute (comparisons : List (ImageSnapshot × Option SizeDiff))
    (config : CiConfig) :
    (incViolations comparisons config).filter Violation.isAbsolute = [] := by
  unfold incViolations
  by_cases h : config.fail_on_increase
  · rw [if_pos h]
    exact filter_map_violation_none _ _ (fun _ => rfl) _
  · rw [if_neg h]
    rfl

theorem incViolations_filter_isPercent (comparisons : List (ImageSnapshot × Option SizeDiff))
    (config : CiConfig) :
    (incViolations comparisons config).filter Violation.isPercent = [] := by
  unfold incViolations
  by_cases h : config.fail_on_increase
  · rw [if_pos h]
    exact filter_map_violation_none _ _ (fun _ => rfl) _
  · rw [if_neg h]
    rfl

/-! ### C3: absolute budget -/

/-- C3: with an absolute budget `B` configured (and the batch aggregate in
the `u64` range), the absolute-budget violations of `check_budgets` are a
single violation recording the aggregate and the budget exactly when the
aggregate of `total_size` over all current snapshots strictly exceeds `B`,
and none otherwise (so equality with `B` passes); in particular the whole
batch yields at most one absolute violation. -/
theorem check_budgets_absolute_spec (comparisons : List (ImageSnapshot × Option SizeDiff))
    (config : CiConfig) (B : Nat) (hB : config.budget_bytes = some B)
    (hsum : sumSizes comparisons < 2 ^ 64) :
    ((check_budgets comparisons config).1.filter Violation.isAbsolute
       = if B < sumSizes comparisons
         then [Violation.absolute (sumSizes comparisons) B] else [])
    ∧ ((∃ v ∈ (check_budgets comparisons config).1, Violation.isAbsolute v = true)
         ↔ B < sumSizes comparisons)
    ∧ (check_budgets comparisons config).1.countP Violation.isAbsolute ≤ 1 := by
  have hmod : sumSizes comparisons % 2 ^ 64 = sumSizes comparisons := Nat.mod_eq_of_lt hsum
  have h1 : (check_budgets comparisons config).1.filter Violation.isAbsolute
      = if B < sumSizes comparisons
        then [Violation.absolute (sumSizes comparisons) B] else [] := by
    rw [check_budgets_eq]
    simp only [List.filter_append, absViolations_filter_self,
      pctViolations_filter_isAbsolute, incViolations_filter_isAbsolute,
      List.append_nil]
    unfold absViolations
    rw [hB, hmod]
  refine ⟨h1, ?_, ?_⟩
  · constructor
    · rintro ⟨v, hv, hva⟩
      by_contra hc
      have : v ∈ (check_budgets comparisons config).1.filter Violation.isAbsolute :=
        List.mem_filter.mpr ⟨hv, hva⟩
      rw [h1, if_neg hc] at this
      simp at this
    · intro hc
      have : Violation.absolute (sumSizes comparisons) B
          ∈ (check_budgets comparisons config).1.filter Violation.isAbsolute := by
        rw [h1, if_pos hc]
        simp
      exact ⟨_, List.mem_of_mem_filter this, rfl⟩
  · rw [List.countP_eq_length_filter, h1]
    by_cases hc : B < sumSizes comparisons
    · simp [hc]
    · simp [hc]

/-- A minimal snapshot builder used for concrete witnesses. -/
def sampleSnap (image : String) (branch : String) (sha : String)
    (total_size : Nat) (layers : List LayerInfo) : ImageSnapshot :=
  { image := image, tag := none, digest := none, commit_sha := sha,
    branch := branch, commit_message := "", author := "", timestamp := 0,
    total_size := total_size, layer_count := layers.length, layers := layers,
    os := "linux", arch := "amd64" }

/-- Batch used in the C3 witness: one image of 150 MB (aggregate
150 000 000 bytes). -/
def batchC3 : List (ImageSnapshot × Option SizeDiff) :=
  [(sampleSnap "app" "main" "a" 150000000 [], none)]

/-- Config used in the C3 witness: absolute budget of 100 000 000 bytes. -/
def configC3 : CiConfig :=
  { images := ["app"], budget_bytes := some 100000000,
    budget_increase_percent := none, github_comment := false,
    base_branch := none, fail_on_increase := false,
    format := CiOutputFormat.Table }

/-- C3 witness: a 150 MB batch against a 100 MB budget instantiates
`check_budgets_absolute_spec`. -/
theorem check_budgets_absolute_spec_witness :
    configC3.budget_bytes = some 100000000
    ∧ sumSizes batchC3 < 2 ^ 64
    ∧ ((check_budgets batchC3 configC3).1.filter Violation.isAbsolute
         = if 100000000 < sumSizes batchC3
           then [Violation.absolute (sumSizes batchC3) 100000000] else [])
    ∧ ((∃ v ∈ (check_budgets batchC3 configC3).1, Violation.isAbsolute v = true)
         ↔ 100000000 < sumSizes batchC3)
    ∧ (check_budgets batchC3 configC3).1.countP Violation.isAbsolute ≤ 1 :=
  ⟨rfl, by decide, check_budgets_absolute_spec batchC3 configC3 100000000 rfl (by decide)⟩

/-! ### C4: percent-increase threshold -/

/-- C4: with a percent threshold `T` configured, the percent violations of
`check_budgets` are exactly one per comparison that has a baseline with
nonzero `before.total_size` and whose percent change
`total_delta / before.total_size × 100` is strictly greater than `T`
(in order, labelled with the image name); comparisons with no baseline or
with zero `before.total_size` are skipped, and a percent change exactly
equal to `T` passes. -/
theorem check_budgets_percent_spec (comparisons : List (ImageSnapshot × Option SizeDiff))
    (config : CiConfig) (T : ℚ) (hT : config.budget_increase_percent = some T) :
    ((check_budgets comparisons config).1.filter Violation.isPercent
       = (comparisons.filter (pctPred T)).map
           (fun p => Violation.percentExceeded (imageName p.1)))
    ∧ (∀ s : ImageSnapshot, pctPred T (s, none) = false)
    ∧ (∀ (s : ImageSnapshot) (diff : SizeDiff),
        diff.before.total_size = 0 → pctPred T (s, some diff) = false)
    ∧ (∀ (s : ImageSnapshot) (diff : SizeDiff),
        percentOf diff = T → pctPred T (s, some diff) = false) := by
  refine ⟨?_, ?_, ?_, ?_⟩
  · rw [check_budgets_eq]
    simp only [List.filter_append, pctViolations_filter_self,
      absViolations_filter_isPercent, incViolations_filter_isPercent,
      List.nil_append, List.append_nil]
    unfold pctViolations
    rw [hT]
  · intro s
    rfl
  · intro s diff h
    simp [pctPred, h]
  · intro s diff h
    simp [pctPred, h]

/-- Batch used in the C4 witness: baseline 100 MB, current 111 MB (an
11 % increase). -/
def batchC4 : List (ImageSnapshot × Option SizeDiff) :=
  [(sampleSnap "app" "main" "b" 111000000 [],
    some (compute_diff (sampleSnap "app" "main" "a" 100000000 [])
                       (sampleSnap "app" "main" "b" 111000000 [])))]

/-- Config used in the C4 witness: percent threshold of 10. -/
def configC4 : CiConfig :=
  { images := ["app"], budget_bytes := none,
    budget_increase_percent := some 10, github_comment := false,
    base_branch := none, fail_on_increase := false,
    format := CiOutputFormat.Table }

/-- C4 witness: a 10 % threshold with an 11 % increase instantiates
`check_budgets_percent_spec`. -/
theorem check_budgets_percent_spec_witness :
    configC4.budget_increase_percent = some 10
    ∧ (((check_budgets batchC4 configC4).1.filter Violation.isPercent
         = (batchC4.filter (pctPred 10)).map
             (fun p => Violation.percentExceeded (imageName p.1)))
      ∧ (∀ s : ImageSnapshot, pctPred 10 (s, none) = false)
      ∧ (∀ (s : ImageSnapshot) (diff : SizeDiff),
          diff.before.total_size = 0 → pctPred 10 (s, some diff) = false)
      ∧ (∀ (s : ImageSnapshot) (diff : SizeDiff),
          percentOf diff = 10 → pctPred 10 (s, some diff) = false)) :=
  ⟨rfl, check_budgets_percent_spec batchC4 configC4 10 rfl⟩

/-! ### C5: fail-on-increase and the overall verdict -/

/-- C5: with fail-on-increase enabled, the fail-on-increase violations of
`check_budgets` are exactly one per comparison that has a baseline and a
strictly positive `total_delta` (in order, labelled with the image name,
regardless of magnitude); and the overall verdict is a failure exactly
when the violation list (across all three checks) is non-empty. -/
theorem check_budgets_fail_on_increase_spec
    (comparisons : List (ImageSnapshot × Option SizeDiff)) (config : CiConfig)
    (hF : config.fail_on_increase = true) :
    ((check_budgets comparisons config).1.filter Violation.isIncrease
       = (comparisons.filter incPred).map
           (fun p => Violation.increased (imageName p.1)))
    ∧ (∀ s : ImageSnapshot, incPred (s, none) = false)
    ∧ ((check_budgets comparisons config).2 = true
         ↔ (check_budgets comparisons config).1 ≠ []) := by
  refine ⟨?_, fun s => rfl, ?_⟩
  · rw [check_budgets_eq]
    simp only [List.filter_append, incViolations_filter_self,
      absViolations_filter_isIncrease, pctViolations_filter_isIncrease,
      List.nil_append, List.append_nil]
    unfold incViolations
    rw [if_pos hF]
  · rw [check_budgets_eq]
    simp

/-- Batch used in the C5 witness: a one-byte increase (99 → 100 bytes). -/
def batchC5 : List (ImageSnapshot × Option SizeDiff) :=
  [(sampleSnap "app" "main" "b" 100 [],
    some (compute_diff (sampleSnap "app" "main" "a" 99 [])
                       (sampleSnap "app" "main" "b" 100 [])))]

/-- Config used in the C5 witness: fail-on-increase enabled, nothing
else. -/
def configC5 : CiConfig :=
  { images := ["app"], budget_bytes := none, budget_increase_percent := none,
    github_comment := false, base_branch := none, fail_on_increase := true,
    format := CiOutputFormat.Table }

/-- C5 witness: fail-on-increase over a one-byte increase instantiates
`check_budgets_fail_on_increase_spec`. -/
theorem check_budgets_fail_on_increase_spec_witness :
    configC5.fail_on_increase = true
    ∧ (((check_budgets batchC5 configC5).1.filter Violation.isIncrease
         = (batchC5.filter incPred).map
             (fun p => Violation.increased (imageName p.1)))
      ∧ (∀ s : ImageSnapshot, incPred (s, none) = false)
      ∧ ((check_budgets batchC5 configC5).2 = true
           ↔ (check_budgets batchC5 configC5).1 ≠ [])) :=
  ⟨rfl, check_budgets_fail_on_increase_spec batchC5 configC5 rfl⟩

/-! ### C7: first run -/

/-- C7: for an image with zero prior history entries, the CI run pairs the
new snapshot with no baseline (first run is not an error: the fold just
sets the first-run flag), still appends the snapshot to the history store,
and the budget gate can only report absolute-budget violations for that
comparison — never percent or fail-on-increase ones. -/
theorem run_ci_first_run_spec (store : Option (List ImageSnapshot))
    (c : ImageSnapshot) (bb : Option String)
    (h : ∀ s ∈ load_history store, s.image ≠ c.image) :
    run_ci_core store [c] bb = ([(c, none)], save_snapshot store c, true)
    ∧ load_history (save_snapshot store c) = load_history store ++ [c]
    ∧ (∀ config : CiConfig, ∀ v ∈ (check_budgets [(c, none)] config).1,
        ∃ o l, v = Violation.absolute o l) := by
  have hfilt : (load_history store).filter (fun s => s.image == c.image) = [] := by
    rw [List.filter_eq_nil_iff]
    intro s hs
    simpa using h s hs
  have hbase : find_baseline_snapshot (load_history store) c.image bb = none := by
    unfold find_baseline_snapshot
    rw [hfilt]
    simp
  refine ⟨?_, ?_, ?_⟩
  · show List.foldl (runCiStep (load_history store) bb) ([], store, false) [c] = _
    simp only [List.foldl_cons, List.foldl_nil]
    unfold runCiStep
    rw [hbase]
    simp
  · cases store <;> rfl
  · intro config v hv
    rw [check_budgets_eq] at hv
    have hpct : pctViolations [(c, none)] config = [] := by
      unfold pctViolations
      cases config.budget_increase_percent <;> simp [pctPred]
    have hinc : incViolations [(c, none)] config = [] := by
      unfold incViolations
      by_cases hf : config.fail_on_increase <;> simp [hf, incPred]
    rw [hpct, hinc] at hv
    simp only [List.append_nil] at hv
    unfold absViolations at hv
    cases hb : config.budget_bytes with
    | none =>
      rw [hb] at hv
      simp at hv
    | some budget =>
      rw [hb] at hv
      by_cases habs : sumSizes [(c, none)] % 2 ^ 64 > budget
      · simp only [habs, if_true, gt_iff_lt, if_pos] at hv
        simp at hv
        exact ⟨_, _, hv⟩
      · simp at hv
        exact absurd hv.1 (by simpa using habs)

/-- C7 witness: an absent store and a fresh 100-byte snapshot instantiate
`run_ci_first_run_spec`. -/
theorem run_ci_first_run_spec_witness :
    (∀ s ∈ load_history (none : Option (List ImageSnapshot)),
        s.image ≠ (sampleSnap "app" "main" "a" 100 []).image)
    ∧ (run_ci_core none [sampleSnap "app" "main" "a" 100 []] none
         = ([(sampleSnap "app" "main" "a" 100 [], none)],
            save_snapshot none (sampleSnap "app" "main" "a" 100 []), true)
      ∧ load_history (save_snapshot none (sampleSnap "app" "main" "a" 100 []))
         = load_history (none : Option (List ImageSnapshot))
             ++ [sampleSnap "app" "main" "a" 100 []]
      ∧ (∀ config : CiConfig,
          ∀ v ∈ (check_budgets [(sampleSnap "app" "main" "a" 100 [], none)] config).1,
            ∃ o l, v = Violation.absolute o l)) :=
  ⟨by simp [load_history],
   run_ci_first_run_spec none (sampleSnap "app" "main" "a" 100 []) none
     (by simp [load_history])⟩

/-! ### C6: baseline resolution by branch -/

theorem find_latest_eq_ok_iff (history : List ImageSnapshot) (branch : String)
    (s : ImageSnapshot) :
    find_latest_snapshot_by_branch history branch = Except.ok s ↔
      history.reverse.find? (fun t => t.branch == branch) = some s := by
  unfold find_latest_snapshot_by_branch
  cases h : history.reverse.find? (fun t => t.branch == branch) with
  | none => simp
  | some a => simp

theorem find_latest_eq_error_iff (history : List ImageSnapshot) (branch : String) :
    (∃ e, find_latest_snapshot_by_branch history branch = Except.error e) ↔
      history.reverse.find? (fun t => t.branch == branch) = none := by
  unfold find_latest_snapshot_by_branch
  cases h : history.reverse.find? (fun t => t.branch == branch) with
  | none => simp
  | some a => simp

/-- C6: over an image-filtered, append-ordered history, resolving a
baseline for an explicit branch returns `ok s` exactly when `s` is an
entry of that branch and no later entry (nothing after it in append
order) is on that branch — the newest match; it fails (NotFound error)
exactly when no entry has that branch. `find_baseline_snapshot` with an
explicit branch agrees with it after filtering to the image. In
particular, for history [(main, 100MB), (main, 120MB), (feature, 130MB)]
in append order, resolving base=main returns the 120MB entry. -/
theorem find_latest_snapshot_by_branch_spec :
    (∀ (history : List ImageSnapshot) (branch : String) (s : ImageSnapshot),
      find_latest_snapshot_by_branch history branch = Except.ok s ↔
        s.branch = branch
        ∧ ∃ l1 l2, history = l1 ++ s :: l2 ∧ ∀ t ∈ l2, t.branch ≠ branch)
    ∧ (∀ (history : List ImageSnapshot) (branch : String),
      (∃ e, find_latest_snapshot_by_branch history branch = Except.error e) ↔
        ∀ s ∈ history, s.branch ≠ branch)
    ∧ (∀ (history : List ImageSnapshot) (image branch : String),
      find_baseline_snapshot history image (some branch)
        = (find_latest_snapshot_by_branch
            (history.filter (fun s => s.image == image)) branch).toOption)
    ∧ find_latest_snapshot_by_branch
        [sampleSnap "app" "main" "c1" 100000000 [],
         sampleSnap "app" "main" "c2" 120000000 [],
         sampleSnap "app" "feature" "c3" 130000000 []] "main"
        = Except.ok (sampleSnap "app" "main" "c2" 120000000 []) := by
  refine ⟨?_, ?_, ?_, ?_⟩
  · intro history branch s
    rw [find_latest_eq_ok_iff, List.find?_eq_some]
    constructor
    · rintro ⟨hpb, as, bs, hrev, hprev⟩
      refine ⟨by simpa using hpb, bs.reverse, as.reverse, ?_, ?_⟩
      · have h2 := congrArg List.reverse hrev
        simpa [List.reverse_append] using h2
      · intro t ht
        have h3 := hprev t (List.mem_reverse.mp ht)
        simpa using h3
    · rintro ⟨hsb, l1, l2, hh, hl2⟩
      refine ⟨by simpa using hsb, l2.reverse, l1.reverse, ?_, ?_⟩
      · rw [hh]
        simp [List.reverse_append]
      · intro a ha
        have h3 := hl2 a (List.mem_reverse.mp ha)
        simpa using h3
  · intro history branch
    rw [find_latest_eq_error_iff, List.find?_eq_none]
    constructor
    · intro hall s hs
      have h2 := hall s (List.mem_reverse.mpr hs)
      simpa using h2
    · intro hall s hs
      have h2 := hall s (List.mem_reverse.mp hs)
      simpa using h2
  · intro history image branch
    unfold find_baseline_snapshot
    by_cases he : (history.filter (fun s => s.image == image)).isEmpty
    · rw [if_pos he]
      have h0 : history.filter (fun s => s.image == image) = [] := by
        simpa using he
      rw [h0]
      rfl
    · rw [if_neg he]
      unfold find_latest_snapshot_by_branch
      cases h : (history.filter (fun s => s.image == image)).reverse.find?
          (fun s => s.branch == branch) with
      | none => simp [h, Except.toOption]
      | some a => simp [h, Except.toOption]
  · rfl

/-! ### C1: layer classification -/

/-- The digest a layer change is keyed on (for `Modified` the before and
after layers share their digest by construction). -/
def changeDigest : LayerChange → String
  | LayerChange.Added l => l.digest
  | LayerChange.Removed l => l.digest
  | LayerChange.Modified b _ => b.digest
  | LayerChange.Unchanged l => l.digest

/-- Is this change `Removed` for digest `d`? -/
def LayerChange.removedWith (d : String) : LayerChange → Bool
  | LayerChange.Removed l => l.digest == d
  | _ => false

/-- Is this change `Added` for digest `d`? -/
def LayerChange.addedWith (d : String) : LayerChange → Bool
  | LayerChange.Added l => l.digest == d
  | _ => false

/-- The body of `compute_diff`'s first loop: classify one `before` layer
against the after-layer map. -/
def classifyBefore (afterLayers : List LayerInfo) (l : LayerInfo) : LayerChange :=
  match findLastByDigest afterLayers l.digest with
  | some after_layer =>
    if l.size = after_layer.size then LayerChange.Unchanged l
    else LayerChange.Modified l after_layer
  | none => LayerChange.Removed l

theorem compute_diff_layer_changes (before after : ImageSnapshot) :
    (compute_diff before after).layer_changes
      = before.layers.map (classifyBefore after.layers)
        ++ (after.layers.filter (fun l => !hasDigest before.layers l.digest)).map
            LayerChange.Added := rfl

theorem filter_not_hasDigest_eq (before afterLayers : List LayerInfo) :
    afterLayers.filter (fun l => !hasDigest before l.digest)
      = afterLayers.filter (fun l => before.all (fun bl => !(bl.digest == l.digest))) := by
  apply List.filter_congr
  intro l _
  unfold hasDigest
  rw [List.not_any_eq_all_not]
  simp [Bool.beq_eq_decide_eq]

theorem findLastByDigest_eq_none_iff (layers : List LayerInfo) (d : String) :
    findLastByDigest layers d = none ↔ hasDigest layers d = false := by
  rw [findLastByDigest_eq_reverse_find, List.find?_eq_none]
  unfold hasDigest
  rw [List.any_eq_false]
  constructor
  · intro h x hx
    have h2 := h x (List.mem_reverse.mpr hx)
    simpa using h2
  · intro h x hx
    have h2 := h x (List.mem_reverse.mp hx)
    simpa using h2

theorem countP_digest_of_nodup (layers : List LayerInfo) (d : String)
    (hn : (layers.map LayerInfo.digest).Nodup) :
    layers.countP (fun l => l.digest == d) = if hasDigest layers d then 1 else 0 := by
  induction layers with
  | nil => simp [hasDigest]
  | cons x xs ih =>
    rw [List.map_cons, List.nodup_cons] at hn
    obtain ⟨hx, hxs⟩ := hn
    rw [List.countP_cons]
    by_cases h : x.digest = d
    · have h0 : xs.countP (fun l => l.digest == d) = 0 := by
        rw [List.countP_eq_zero]
        intro a ha hpa
        apply hx
        rw [List.mem_map]
        have ha' : a.digest = d := by simpa using hpa
        exact ⟨a, ha, by rw [ha', h]⟩
      have hd : hasDigest (x :: xs) d = true := by
        simp [hasDigest, h]
      rw [h0, hd]
      simp [h]
    · have hd : hasDigest (x :: xs) d = hasDigest xs d := by
        simp [hasDigest, List.any_cons, h]
      rw [hd, ih hxs]
      simp [h]

theorem removedWith_classifyBefore (afterLayers : List LayerInfo) (d : String)
    (l : LayerInfo) :
    LayerChange.removedWith d (classifyBefore afterLayers l)
      = (decide (findLastByDigest afterLayers l.digest = none) && (l.digest == d)) := by
  unfold classifyBefore
  cases h : findLastByDigest afterLayers l.digest with
  | none => simp [LayerChange.removedWith]
  | some al =>
    by_cases hs : l.size = al.size
    · simp [hs, LayerChange.removedWith]
    · simp [hs, LayerChange.removedWith]

theorem addedWith_classifyBefore (afterLayers : List LayerInfo) (d : String)
    (l : LayerInfo) :
    LayerChange.addedWith d (classifyBefore afterLayers l) = false := by
  unfold classifyBefore
  cases h : findLastByDigest afterLayers l.digest with
  | none => simp [LayerChange.addedWith]
  | some al =>
    by_cases hs : l.size = al.size
    · simp [hs, LayerChange.addedWith]
    · simp [hs, LayerChange.addedWith]

theorem changeDigest_classifyBefore (afterLayers : List LayerInfo) (l : LayerInfo) :
    changeDigest (classifyBefore afterLayers l) = l.digest := by
  unfold classifyBefore
  cases h : findLastByDigest afterLayers l.digest with
  | none => rfl
  | some al =>
    by_cases hs : l.size = al.size
    · simp [hs, changeDigest]
    · simp [hs, changeDigest]

/-- C1: with digests unique within each side, the diff classifies layers
exactly as specified: for each `before` layer in before-order it emits
`Unchanged` when `after` has a layer with the same digest and equal size,
`Modified` (pairing the before layer with the matching after layer) when
the sizes differ, and `Removed` when no after layer has that digest;
then, in after-order, it emits `Added` for every after layer whose digest
is absent from `before`. Consequently every digest present only in
`before` yields exactly one `Removed`, every digest present only in
`after` yields exactly one `Added`, and no digest is classified twice
(the digests of the emitted changes are pairwise distinct). -/
theorem compute_diff_classification_spec (before after : ImageSnapshot)
    (hb : (before.layers.map LayerInfo.digest).Nodup)
    (ha : (after.layers.map LayerInfo.digest).Nodup) :
    ((compute_diff before after).layer_changes
       = before.layers.map (fun l =>
           match after.layers.find? (fun al => al.digest == l.digest) with
           | some al =>
             if l.size = al.size then LayerChange.Unchanged l
             else LayerChange.Modified l al
           | none => LayerChange.Removed l)
         ++ (after.layers.filter
              (fun l => before.layers.all (fun bl => !(bl.digest == l.digest)))).map
             LayerChange.Added)
    ∧ (∀ d : String,
        (compute_diff before after).layer_changes.countP (LayerChange.removedWith d)
          = if hasDigest before.layers d && !hasDigest after.layers d then 1 else 0)
    ∧ (∀ d : String,
        (compute_diff before after).layer_changes.countP (LayerChange.addedWith d)
          = if hasDigest after.layers d && !hasDigest before.layers d then 1 else 0)
    ∧ ((compute_diff before after).layer_changes.map changeDigest).Nodup := by
  refine ⟨?_, ?_, ?_, ?_⟩
  · rw [compute_diff_layer_changes, filter_not_hasDigest_eq]
    congr 1
    apply List.map_congr_left
    intro l _
    unfold classifyBefore
    rw [findLastByDigest_eq_find?_of_nodup _ _ ha]
  · intro d
    rw [compute_diff_layer_changes, List.countP_append]
    have h2 : ((after.layers.filter (fun l => !hasDigest before.layers l.digest)).map
        LayerChange.Added).countP (LayerChange.removedWith d) = 0 := by
      rw [List.countP_map, List.countP_eq_zero]
      intro a _
      simp [Function.comp, LayerChange.removedWith]
    rw [h2, Nat.add_zero, List.countP_map]
    have h3 : before.layers.countP
        (LayerChange.removedWith d ∘ classifyBefore after.layers)
        = before.layers.countP
            (fun l => decide (findLastByDigest after.layers l.digest = none)
               && (l.digest == d)) := by
      apply List.countP_congr
      intro l _
      rw [Function.comp_apply, removedWith_classifyBefore]
    rw [h3]
    by_cases hA : hasDigest after.layers d = true
    · have h4 : before.layers.countP
          (fun l => decide (findLastByDigest after.layers l.digest = none)
             && (l.digest == d)) = 0 := by
        rw [List.countP_eq_zero]
        intro l _ hl
        simp only [Bool.and_eq_true, decide_eq_true_eq, beq_iff_eq] at hl
        obtain ⟨h5, h6⟩ := hl
        rw [h6, findLastByDigest_eq_none_iff] at h5
        simp [h5] at hA
      rw [h4]
      simp [hA]
    · have hA2 : hasDigest after.layers d = false := by
        cases hfa : hasDigest after.layers d
        · rfl
        · exact absurd hfa hA
      have h5 : before.layers.countP
          (fun l => decide (findLastByDigest after.layers l.digest = none)
             && (l.digest == d))
          = before.layers.countP (fun l => l.digest == d) := by
        apply List.countP_congr
        intro l _
        constructor
        · intro h
          simp only [Bool.and_eq_true] at h
          exact h.2
        · intro h
          have hld : l.digest = d := by simpa using h
          simp only [Bool.and_eq_true]
          refine ⟨?_, h⟩
          rw [hld]
          simp [findLastByDigest_eq_none_iff, hA2]
      rw [h5, countP_digest_of_nodup _ _ hb]
      simp [hA2]
  · intro d
    rw [compute_diff_layer_changes, List.countP_append]
    have h2 : (before.layers.map (classifyBefore after.layers)).countP
        (LayerChange.addedWith d) = 0 := by
      rw [List.countP_map, List.countP_eq_zero]
      intro l _
      simp [Function.comp, addedWith_classifyBefore]
    rw [h2, Nat.zero_add, List.countP_map]
    have h3 : (after.layers.filter (fun l => !hasDigest before.layers l.digest)).countP
        (LayerChange.addedWith d ∘ LayerChange.Added)
        = (after.layers.filter (fun l => !hasDigest before.layers l.digest)).countP
            (fun l => l.digest == d) := by
      apply List.countP_congr
      intro l _
      simp [Function.comp, LayerChange.addedWith]
    rw [h3, List.countP_filter]
    by_cases hB : hasDigest before.layers d = true
    · have h4 : after.layers.countP
          (fun l => (l.digest == d) && !hasDigest before.layers l.digest) = 0 := by
        rw [List.countP_eq_zero]
        intro l _ hl
        simp only [Bool.and_eq_true, beq_iff_eq, Bool.not_eq_true'] at hl
        obtain ⟨h5, h6⟩ := hl
        rw [h5] at h6
        simp [h6] at hB
      rw [h4]
      simp [hB]
    · have hB2 : hasDigest before.layers d = false := by
        cases hfb : hasDigest before.layers d
        · rfl
        · exact absurd hfb hB
      have h5 : after.layers.countP
          (fun l => (l.digest == d) && !hasDigest before.layers l.digest)
          = after.layers.countP (fun l => l.digest == d) := by
        apply List.countP_congr
        intro l _
        constructor
        · intro h
          simp only [Bool.and_eq_true] at h
          exact h.1
        · intro h
          have hld : l.digest = d := by simpa using h
          simp only [Bool.and_eq_true]
          refine ⟨h, ?_⟩
          rw [hld, hB2]
          rfl
      rw [h5, countP_digest_of_nodup _ _ ha]
      simp [hB2]
  · rw [compute_diff_layer_changes, List.map_append, List.map_map, List.map_map]
    have e1 : before.layers.map (changeDigest ∘ classifyBefore after.layers)
        = before.layers.map LayerInfo.digest := by
      apply List.map_congr_left
      intro l _
      exact changeDigest_classifyBefore _ _
    have e2 : (after.layers.filter (fun l => !hasDigest before.layers l.digest)).map
        (changeDigest ∘ LayerChange.Added)
        = (after.layers.filter (fun l => !hasDigest before.layers l.digest)).map
            LayerInfo.digest := rfl
    rw [e1, e2, List.nodup_append]
    refine ⟨hb, ?_, ?_⟩
    · exact List.Nodup.sublist ((List.filter_sublist after.layers).map LayerInfo.digest) ha
    · intro a haB haA
      rw [List.mem_map] at haB haA
      obtain ⟨lb, hlb, rfl⟩ := haB
      obtain ⟨la, hla, hda⟩ := haA
      rw [List.mem_filter] at hla
      obtain ⟨hlaMem, hp⟩ := hla
      have h6 : hasDigest before.layers la.digest = false := by simpa using hp
      rw [hda] at h6
      have h7 : hasDigest before.layers lb.digest = true := by
        simp only [hasDigest, List.any_eq_true]
        exact ⟨lb, hlb, by simp⟩
      rw [h7] at h6
      cases h6

/-- Before-snapshot for the C1 witness: layers a (10), b (20), c (30). -/
def beforeC1 : ImageSnapshot :=
  sampleSnap "app" "main" "c1" 60
    [{ digest := "sha256:a", size := 10, command := "RUN a", created := 0 },
     { digest := "sha256:b", size := 20, command := "RUN b", created := 0 },
     { digest := "sha256:c", size := 30, command := "RUN c", created := 0 }]

/-- After-snapshot for the C1 witness: layer a unchanged, b resized,
c gone, d new. -/
def afterC1 : ImageSnapshot :=
  sampleSnap "app" "main" "c2" 75
    [{ digest := "sha256:a", size := 10, command := "RUN a", created := 0 },
     { digest := "sha256:b", size := 25, command := "RUN b", created := 0 },
     { digest := "sha256:d", size := 40, command := "RUN d", created := 0 }]

/-- C1 witness: the concrete snapshot pair (Unchanged a, Modified b,
Removed c, Added d) instantiates `compute_diff_classification_spec`. -/
theorem compute_diff_classification_spec_witness :
    (beforeC1.layers.map LayerInfo.digest).Nodup
    ∧ (afterC1.layers.map LayerInfo.digest).Nodup
    ∧ (((compute_diff beforeC1 afterC1).layer_changes
         = beforeC1.layers.map (fun l =>
             match afterC1.layers.find? (fun al => al.digest == l.digest) with
             | some al =>
               if l.size = al.size then LayerChange.Unchanged l
               else LayerChange.Modified l al
             | none => LayerChange.Removed l)
           ++ (afterC1.layers.filter
                (fun l => beforeC1.layers.all (fun bl => !(bl.digest == l.digest)))).map
               LayerChange.Added)
      ∧ (∀ d : String,
          (compute_diff beforeC1 afterC1).layer_changes.countP (LayerChange.removedWith d)
            = if hasDigest beforeC1.layers d && !hasDigest afterC1.layers d then 1 else 0)
      ∧ (∀ d : String,
          (compute_diff beforeC1 afterC1).layer_changes.countP (LayerChange.addedWith d)
            = if hasDigest afterC1.layers d && !hasDigest beforeC1.layers d then 1 else 0)
      ∧ ((compute_diff beforeC1 afterC1).layer_changes.map changeDigest).Nodup) :=
  ⟨by decide, by decide,
   compute_diff_classification_spec beforeC1 afterC1 (by decide) (by decide)⟩

end Dit
